import Mathlib

/-!
Shallow embedding of the data-access layer of the Attendance-System
repository (src/database.py, class AttendanceSystemDB) and proofs about it.

The SQLite store is modelled as an explicit state value (structure DB).
Each Python method of AttendanceSystemDB becomes a Lean function on DB;
methods that raise typed errors return the unchanged state together with an
Except value (the spec names the error kinds ValidationError and
NotFoundError; in the source both are raised as ValueError from two distinct
raise sites, which the error type below distinguishes).

Modelling conventions, each justified by the source or by SQLite semantics:
  - TEXT comparison (date BETWEEN bounds, ORDER BY on names) uses the BINARY
    collation, i.e. byte order of the UTF-8 encoding; since UTF-8 preserves
    code-point order this equals lexicographic order on code points, which
    lexLt below implements directly on the character list of a String.
  - Python str.lower and str.strip are re-implemented on the character list
    (strLower, strTrim) because the corresponding core String functions do
    not reduce inside the kernel.
  - TIME values stay strings; strftime applied by the hours-worked SQL
    expression maps HH:MM:SS to epoch seconds of a fixed reference day, so
    the difference of two such values equals the difference of the
    seconds-of-day values that timeSecs computes.
  - SUM(CASE ...) over zero rows is NULL in SQLite, hence Option Nat fields;
    COUNT is never NULL, hence plain Nat.
  - ROUND(x, 2) and the Python round(x, 2) are both modelled by round2 on
    rationals; no claim depends on tie-breaking behaviour.
  - Python truthiness of optional filter arguments (None, 0 and the empty
    string are falsy) is modelled by optStrGiven and optNatGiven.
-/

/-- Lowercasing of a character, as Python str.lower acts on ASCII input. -/
def chDown (c : Char) : Char := c.toLower

/-- Python str.lower, re-implemented over the character list of the string. -/
def strLower (s : String) : String := ⟨s.data.map chDown⟩

/-- Whitespace test used by strTrim. -/
def wsp (c : Char) : Bool := c.isWhitespace

/-- Python str.strip: drop whitespace from both ends. -/
def strTrim (s : String) : String :=
  ⟨((s.data.dropWhile wsp).reverse.dropWhile wsp).reverse⟩

/-- Strict comparison of characters by code point. -/
def chLtN (a b : Char) : Bool := decide (a.val.toNat < b.val.toNat)

/-- Lexicographic strict order on character lists; this is the order SQLite
uses for TEXT under the default BINARY collation. -/
def lexLt : List Char → List Char → Bool
  | [], [] => false
  | [], _ :: _ => true
  | _ :: _, [] => false
  | a :: as, b :: bs =>
    if chLtN a b then true else if chLtN b a then false else lexLt as bs

/-- SQLite TEXT strict order on strings. -/
def strLtb (a b : String) : Bool := lexLt a.data b.data

/-- SQLite TEXT non-strict order on strings. -/
def strLeb (a b : String) : Bool := !(strLtb b a)

/-- Numeric value of a digit list, as int() applied to the digits. -/
def digitsVal (cs : List Char) : Nat :=
  cs.foldl (fun n c => n * 10 + (c.val.toNat - 48)) 0

/-- Split a character list at every occurrence of the separator. -/
def splitChars (sep : Char) : List Char → List (List Char)
  | [] => [[]]
  | c :: cs =>
    match splitChars sep cs with
    | [] => if c = sep then [[], []] else [[c]]
    | g :: gs => if c = sep then [] :: g :: gs else (c :: g) :: gs

/-- Seconds-of-day value of an HH:MM:SS string.  strftime with format %s maps
such a TIME to epoch seconds of a fixed reference day, so differences of two
strftime values equal differences of timeSecs values. -/
def timeSecs (t : String) : Int :=
  match splitChars ':' t.data with
  | [h, m, s] => ((digitsVal h * 3600 + digitsVal m * 60 + digitsVal s : Nat) : Int)
  | _ => 0

/-- Rounding to two decimal places, modelling ROUND(x, 2) and round(x, 2). -/
def round2 (q : ℚ) : ℚ := ((round (q * 100) : ℤ) : ℚ) / 100

/-- A row of the users table. -/
structure User where
  id : Nat
  name : String
  role : String
  deriving Repr, DecidableEq

/-- A row of the attendance table. -/
structure AttendanceRecord where
  id : Nat
  user_id : Nat
  date : String
  status : String
  check_in : Option String
  check_out : Option String
  notes : Option String
  deriving Repr, DecidableEq

/-- The whole store: both tables plus the AUTOINCREMENT counters. -/
structure DB where
  users : List User
  attendance : List AttendanceRecord
  next_user_id : Nat
  next_att_id : Nat
  deriving Repr, DecidableEq

/-- Typed errors of the data-access layer, as named by the spec.  The source
raises ValueError at two distinct sites; the constructor records which. -/
inductive DBError where
  | validationError (msg : String)
  | notFoundError (msg : String)
  deriving Repr, DecidableEq

/-- The role enumeration of the users table. -/
def roles : List String := ["student", "employee", "admin"]

/-- The status enumeration of the attendance table. -/
def statuses : List String := ["present", "absent", "late"]

/-- AttendanceSystemDB.add_user.  The emptiness test is Python truthiness of
the raw argument (the empty string only); the stored name is stripped. -/
def add_user (db : DB) (name role : String) : DB × Except DBError Nat :=
  if name = "" ∨ role = "" then
    (db, .error (.validationError "Name and role cannot be empty"))
  else if strLower role ∉ roles then
    (db, .error (.validationError "Role must be one of: student, employee, admin"))
  else
    ({ db with
        users := db.users ++
          [{ id := db.next_user_id, name := strTrim name, role := strLower role }],
        next_user_id := db.next_user_id + 1 },
     .ok db.next_user_id)

/-- The natural key of the attendance table, as the WHERE clause of the
existence probe in mark_attendance tests it. -/
def attKeyb (user_id : Nat) (date : String) (r : AttendanceRecord) : Bool :=
  r.user_id == user_id && r.date == date

/-- The SET clause of the UPDATE branch of mark_attendance: overwrite the
four mutable columns of the row whose id matches. -/
def applyUpdate (status : String) (check_in check_out notes : Option String)
    (target : Nat) (r : AttendanceRecord) : AttendanceRecord :=
  if r.id = target then
    { r with status := strLower status, check_in := check_in,
             check_out := check_out, notes := notes }
  else r

/-- The VALUES of the INSERT branch of mark_attendance. -/
def newRecord (db : DB) (user_id : Nat) (date status : String)
    (check_in check_out notes : Option String) : AttendanceRecord :=
  { id := db.next_att_id, user_id := user_id, date := date,
    status := strLower status, check_in := check_in,
    check_out := check_out, notes := notes }

/-- AttendanceSystemDB.mark_attendance: status validation, then the user
existence probe, then update-or-insert on the (user_id, date) key. -/
def mark_attendance (db : DB) (user_id : Nat) (status date : String)
    (check_in check_out notes : Option String) : DB × Except DBError Bool :=
  if strLower status ∉ statuses then
    (db, .error (.validationError "Status must be one of: present, absent, late"))
  else if ∀ u ∈ db.users, u.id ≠ user_id then
    (db, .error (.notFoundError "User with this ID does not exist"))
  else
    match db.attendance.find? (attKeyb user_id date) with
    | some existing =>
      ({ db with
          attendance := db.attendance.map
            (applyUpdate status check_in check_out notes existing.id) },
       .ok true)
    | none =>
      ({ db with
          attendance := db.attendance ++
            [newRecord db user_id date status check_in check_out notes],
          next_att_id := db.next_att_id + 1 },
       .ok true)

/-- AttendanceSystemDB.delete_user: DELETE FROM users WHERE id = ?, with the
foreign-key cascade removing the attendance rows of the deleted user; the
return value is rowcount of the DELETE on users. -/
def delete_user (db : DB) (user_id : Nat) : DB × Bool :=
  let removed := db.users.any (fun u => u.id == user_id)
  ({ db with
      users := db.users.filter (fun u => !(u.id == user_id)),
      attendance :=
        if removed then db.attendance.filter (fun r => !(r.user_id == user_id))
        else db.attendance },
   removed)

/-- Python truthiness of an optional string argument. -/
def optStrGiven : Option String → Bool
  | some s => s != ""
  | none => false

/-- Python truthiness of an optional integer argument. -/
def optNatGiven : Option Nat → Bool
  | some n => n != 0
  | none => false

/-- The hours-worked CASE expression of view_attendance:
(strftime of check_out minus strftime of check_in) / 3600.0 when both are
present, NULL otherwise. -/
def hoursWorked (check_in check_out : Option String) : Option ℚ :=
  match check_out, check_in with
  | some co, some ci => some ((((timeSecs co - timeSecs ci : Int)) : ℚ) / 3600)
  | _, _ => none

/-- A row of the view_attendance result set. -/
structure QueryRow where
  user_id : Nat
  name : String
  role : String
  date : String
  status : String
  check_in : Option String
  check_out : Option String
  notes : Option String
  hours_worked : Option ℚ
  deriving Repr, DecidableEq

/-- The SELECT list of view_attendance for one joined (attendance, user)
pair, including the derived hours_worked column. -/
def joinRow (a : AttendanceRecord) (u : User) : QueryRow :=
  { user_id := u.id, name := u.name, role := u.role, date := a.date,
    status := a.status, check_in := a.check_in, check_out := a.check_out,
    notes := a.notes, hours_worked := hoursWorked a.check_in a.check_out }

/-- The JOIN of view_attendance: attendance joined with users on the users
primary key (at most one matching user per attendance row). -/
def joinedRows (db : DB) : List QueryRow :=
  db.attendance.filterMap (fun a =>
    (db.users.find? (fun u => u.id == a.user_id)).map (joinRow a))

/-- The dynamically built WHERE clause of view_attendance: each conjunct is
added only when its argument is truthy in Python. -/
def rowPasses (start_date end_date : Option String) (user_id : Option Nat)
    (status : Option String) (r : QueryRow) : Bool :=
  (if optStrGiven start_date then strLeb (start_date.getD "") r.date else true) &&
  (if optStrGiven end_date then strLeb r.date (end_date.getD "") else true) &&
  (if optNatGiven user_id then r.user_id == user_id.getD 0 else true) &&
  (if optStrGiven status then r.status == strLower (status.getD "") else true)

/-- AttendanceSystemDB.view_attendance: join attendance with users, apply
the optional conjunctive filters, order by date descending then name
ascending. -/
def view_attendance (db : DB) (start_date end_date : Option String)
    (user_id : Option Nat) (status : Option String) : List QueryRow :=
  List.insertionSort (fun a b =>
    (strLtb b.date a.date || (a.date == b.date && strLeb a.name b.name)) = true)
    ((joinedRows db).filter (rowPasses start_date end_date user_id status))

/-- The BETWEEN predicate of the report and statistics queries. -/
def inRangeb (start_date end_date : String) (r : AttendanceRecord) : Bool :=
  strLeb start_date r.date && strLeb r.date end_date

/-- The group of attendance rows the LEFT JOIN of generate_report associates
with one user: rows of that user whose date lies in the range. -/
def userRecs (db : DB) (start_date end_date : String) (uid : Nat) :
    List AttendanceRecord :=
  db.attendance.filter (fun r => r.user_id == uid && inRangeb start_date end_date r)

/-- A row of the generate_report result set. -/
structure ReportRow where
  id : Nat
  name : String
  role : String
  total_days : Nat
  present_days : Nat
  absent_days : Nat
  late_days : Nat
  avg_hours_per_day : Option ℚ
  attendance_percent : ℚ
  deriving Repr, DecidableEq

/-- The aggregate row generate_report computes for one user: the SQL
aggregates over the group of that user, plus the attendance_percent column
the pandas post-processing appends. -/
def reportRow (db : DB) (start_date end_date : String) (u : User) : ReportRow :=
  let recs := userRecs db start_date end_date u.id
  let total_days := (recs.map (fun r => r.date)).dedup.length
  let present_days := recs.countP (fun r => r.status == "present")
  let hrs := recs.filterMap (fun r => hoursWorked r.check_in r.check_out)
  { id := u.id, name := u.name, role := u.role,
    total_days := total_days,
    present_days := present_days,
    absent_days := recs.countP (fun r => r.status == "absent"),
    late_days := recs.countP (fun r => r.status == "late"),
    avg_hours_per_day :=
      if hrs.isEmpty then none else some (round2 (hrs.sum / (hrs.length : ℚ))),
    attendance_percent :=
      if total_days > 0 then round2 (((present_days : ℚ) / (total_days : ℚ)) * 100)
      else 0 }

/-- The optional role filter of generate_report (and get_users): applied only
when the argument is truthy, compared against the lowercased argument. -/
def roleMatchb (role : Option String) (u : User) : Bool :=
  if optStrGiven role then u.role == strLower (role.getD "") else true

/-- AttendanceSystemDB.generate_report: one aggregate row per user surviving
the role filter (users without attendance in range included via the LEFT
JOIN), ordered by name ascending. -/
def generate_report (db : DB) (start_date end_date : String)
    (role : Option String) : List ReportRow :=
  List.insertionSort (fun a b => strLeb a.name b.name = true)
    ((db.users.filter (roleMatchb role)).map (reportRow db start_date end_date))

/-- The get_attendance_stats result. -/
structure Stats where
  total_records : Nat
  present_count : Option Nat
  absent_count : Option Nat
  late_count : Option Nat
  total_users : Nat
  overall_present_rate : ℚ
  deriving Repr, DecidableEq

/-- SUM(CASE WHEN p THEN 1 ELSE 0 END) over a list of rows: NULL when there
are no rows at all, the count of rows satisfying p otherwise. -/
def sumCase (p : AttendanceRecord → Bool) (recs : List AttendanceRecord) :
    Option Nat :=
  if recs.isEmpty then none else some (recs.countP p)

/-- AttendanceSystemDB.get_attendance_stats: unconditional user count, COUNT
and per-status SUMs over the rows in range, and the overall present rate
(the getD 0 is unreachable: the SUM is non-NULL whenever the COUNT is
positive). -/
def get_attendance_stats (db : DB) (start_date end_date : String) : Stats :=
  let recs := db.attendance.filter (inRangeb start_date end_date)
  let present := sumCase (fun r => r.status == "present") recs
  { total_records := recs.length,
    present_count := present,
    absent_count := sumCase (fun r => r.status == "absent") recs,
    late_count := sumCase (fun r => r.status == "late") recs,
    total_users := db.users.length,
    overall_present_rate :=
      if recs.length > 0 then
        round2 ((((present.getD 0 : Nat) : ℚ) / (recs.length : ℚ)) * 100)
      else 0 }

/-- Well-formedness of the attendance table that SQLite guarantees: the id
column is a primary key, (user_id, date) is UNIQUE, and AUTOINCREMENT keeps
the counter above every existing id. -/
def DB.wfAtt (db : DB) : Prop :=
  db.attendance.Pairwise (fun a b => a.id ≠ b.id) ∧
  db.attendance.Pairwise (fun a b => ¬(a.user_id = b.user_id ∧ a.date = b.date)) ∧
  ∀ r ∈ db.attendance, r.id < db.next_att_id

/-- Referential integrity of the foreign key user_id, enforced by the
PRAGMA foreign_keys = ON set on every connection. -/
def DB.fkOk (db : DB) : Prop :=
  ∀ r ∈ db.attendance, ∃ u ∈ db.users, u.id = r.user_id

/-- The users id column is a primary key. -/
def DB.usersNodup (db : DB) : Prop :=
  db.users.Pairwise (fun a b => a.id ≠ b.id)

instance (db : DB) : Decidable db.wfAtt := by unfold DB.wfAtt; infer_instance

instance (db : DB) : Decidable db.fkOk := by unfold DB.fkOk; infer_instance

instance (db : DB) : Decidable db.usersNodup := by
  unfold DB.usersNodup; infer_instance

/-! ### Order lemmas for the TEXT collation -/

lemma lexLt_cons_eq (a b : Char) (as bs : List Char) :
    lexLt (a :: as) (b :: bs) =
      if a.val.toNat < b.val.toNat then true
      else if b.val.toNat < a.val.toNat then false
      else lexLt as bs := by
  simp [lexLt, chLtN]

lemma lexLt_asymm : ∀ as bs : List Char, lexLt as bs = true → lexLt bs as = false := by
  intro as
  induction as with
  | nil =>
    intro bs h
    cases bs with
    | nil => simp [lexLt] at h
    | cons b t => simp [lexLt]
  | cons a as ih =>
    intro bs h
    cases bs with
    | nil => simp [lexLt] at h
    | cons b t =>
      rw [lexLt_cons_eq] at h ⊢
      by_cases h1 : a.val.toNat < b.val.toNat
      · have h2 : ¬ b.val.toNat < a.val.toNat := by omega
        simp [h1, h2]
      · by_cases h2 : b.val.toNat < a.val.toNat
        · simp [h1, h2] at h
        · simp [h1, h2] at h ⊢
          exact ih t h

lemma lexLt_transfer :
    ∀ cs as bs : List Char, lexLt cs as = true → lexLt cs bs = false →
      lexLt bs as = true := by
  intro cs
  induction cs with
  | nil =>
    intro as bs h1 h2
    cases as with
    | nil => simp [lexLt] at h1
    | cons x xs =>
      cases bs with
      | nil => simp [lexLt]
      | cons y ys => simp [lexLt] at h2
  | cons z zs ih =>
    intro as bs h1 h2
    cases as with
    | nil => simp [lexLt] at h1
    | cons x xs =>
      cases bs with
      | nil => simp [lexLt]
      | cons y ys =>
        rw [lexLt_cons_eq] at h1 h2 ⊢
        by_cases hzx : z.val.toNat < x.val.toNat
        · by_cases hyx : y.val.toNat < x.val.toNat
          · simp [hyx]
          · by_cases hzy : z.val.toNat < y.val.toNat
            · simp [hzy] at h2
            · omega
        · by_cases hxz : x.val.toNat < z.val.toNat
          · simp [hzx, hxz] at h1
          · by_cases hzy : z.val.toNat < y.val.toNat
            · simp [hzy] at h2
            · by_cases hyz : y.val.toNat < z.val.toNat
              · have hyx : y.val.toNat < x.val.toNat := by omega
                simp [hyx]
              · have hyx : ¬ y.val.toNat < x.val.toNat := by omega
                have hxy : ¬ x.val.toNat < y.val.toNat := by omega
                simp [hzx, hxz] at h1
                simp [hzy, hyz] at h2
                simp [hyx, hxy]
                exact ih xs ys h1 h2

lemma strLeb_total (a b : String) : strLeb a b = true ∨ strLeb b a = true := by
  unfold strLeb strLtb
  cases h : lexLt b.data a.data
  · left; simp
  · right; simp [lexLt_asymm _ _ h]

lemma strLeb_trans (a b c : String) (h1 : strLeb a b = true)
    (h2 : strLeb b c = true) : strLeb a c = true := by
  unfold strLeb strLtb at h1 h2 ⊢
  simp only [Bool.not_eq_true'] at h1 h2 ⊢
  cases h : lexLt c.data a.data
  · rfl
  · rw [lexLt_transfer c.data a.data b.data h h2] at h1
    cases h1

/-! ### Counting helpers -/

lemma attKeyb_iff (u : Nat) (d : String) (r : AttendanceRecord) :
    attKeyb u d r = true ↔ r.user_id = u ∧ r.date = d := by
  simp [attKeyb]

lemma countP_eq_one_unique {α : Type} {p : α → Bool} :
    ∀ l : List α, l.Pairwise (fun a b => a ≠ b) →
      (∀ x ∈ l, ∀ y ∈ l, p x = true → p y = true → x = y) →
      ∀ a ∈ l, p a = true → l.countP p = 1 := by
  intro l
  induction l with
  | nil => intro _ _ a ha; cases ha
  | cons b t ih =>
    intro hnd huniq a ha hpa
    rw [List.countP_cons]
    rcases List.pairwise_cons.mp hnd with ⟨hbt, hndt⟩
    by_cases hpb : p b = true
    · have ht0 : t.countP p = 0 := by
        rw [List.countP_eq_zero]
        intro x hx hpx
        exact (hbt x hx) (huniq b (by simp) x (by simp [hx]) hpb hpx)
      simp [ht0, hpb]
    · have hat : a ∈ t := by
        rcases List.mem_cons.mp ha with rfl | hmem
        · exact absurd hpa hpb
        · exact hmem
      have hrec := ih hndt
        (fun x hx y hy hpx hpy => huniq x (by simp [hx]) y (by simp [hy]) hpx hpy)
        a hat hpa
      simp [hpb, hrec]

/-! ### Facts about the update helper of mark_attendance -/

lemma applyUpdate_id (s : String) (ci co n : Option String) (t : Nat)
    (r : AttendanceRecord) : (applyUpdate s ci co n t r).id = r.id := by
  unfold applyUpdate; split <;> rfl

lemma applyUpdate_user_id (s : String) (ci co n : Option String) (t : Nat)
    (r : AttendanceRecord) : (applyUpdate s ci co n t r).user_id = r.user_id := by
  unfold applyUpdate; split <;> rfl

lemma applyUpdate_date (s : String) (ci co n : Option String) (t : Nat)
    (r : AttendanceRecord) : (applyUpdate s ci co n t r).date = r.date := by
  unfold applyUpdate; split <;> rfl

lemma applyUpdate_key (u : Nat) (d s : String) (ci co n : Option String)
    (t : Nat) (r : AttendanceRecord) :
    attKeyb u d (applyUpdate s ci co n t r) = attKeyb u d r := by
  simp [attKeyb, applyUpdate_user_id, applyUpdate_date]

/-- Central lemma about a single successful mark_attendance call on a
well-formed store: well-formedness is preserved, the (user, date) key now
holds exactly one record, and that record carries the arguments of the call
with the status lowercased. -/
lemma mark_ok_spec (db : DB) (u : Nat) (s d : String) (ci co n : Option String)
    (db2 : DB) (b : Bool) (hwf : db.wfAtt)
    (h : mark_attendance db u s d ci co n = (db2, .ok b)) :
    db2.wfAtt ∧
    db2.attendance.countP (attKeyb u d) = 1 ∧
    ∀ r ∈ db2.attendance, attKeyb u d r = true →
      r.status = strLower s ∧ r.check_in = ci ∧ r.check_out = co ∧ r.notes = n := by
  obtain ⟨hwf1, hwf2, hwf3⟩ := hwf
  unfold mark_attendance at h
  by_cases hst : strLower s ∉ statuses
  · rw [if_pos hst] at h; simp at h
  · rw [if_neg hst] at h
    by_cases hex : ∀ uu ∈ db.users, uu.id ≠ u
    · rw [if_pos hex] at h; simp at h
    · rw [if_neg hex] at h
      rcases hfind : db.attendance.find? (attKeyb u d) with _ | ex
      all_goals rw [hfind] at h
      · -- INSERT branch
        simp only [Prod.mk.injEq, Except.ok.injEq] at h
        obtain ⟨hdb, -⟩ := h
        subst hdb
        have hnone : ∀ x ∈ db.attendance, ¬ attKeyb u d x = true :=
          List.find?_eq_none.mp hfind
        have hkeynew : attKeyb u d (newRecord db u d s ci co n) = true := by
          simp [attKeyb, newRecord]
        refine ⟨⟨?_, ?_, ?_⟩, ?_, ?_⟩
        · rw [List.pairwise_append]
          refine ⟨hwf1, by simp, ?_⟩
          intro a ha bb hb
          rw [List.mem_singleton] at hb
          subst hb
          have := hwf3 a ha
          simp only [newRecord]
          omega
        · rw [List.pairwise_append]
          refine ⟨hwf2, by simp, ?_⟩
          intro a ha bb hb
          rw [List.mem_singleton] at hb
          subst hb
          intro hcontra
          exact hnone a ha (by
            rw [attKeyb_iff]
            simp only [newRecord] at hcontra
            exact ⟨hcontra.1, hcontra.2⟩)
        · intro r hr
          rcases List.mem_append.mp hr with hl | hsing
          · have := hwf3 r hl; simp; omega
          · rw [List.mem_singleton] at hsing
            subst hsing
            simp [newRecord]
        · rw [List.countP_append]
          rw [List.countP_eq_zero.mpr hnone]
          simp [hkeynew]
        · intro r hr hkey
          rcases List.mem_append.mp hr with hl | hsing
          · exact absurd hkey (hnone r hl)
          · rw [List.mem_singleton] at hsing
            subst hsing
            simp [newRecord]
      · -- UPDATE branch
        simp only [Prod.mk.injEq, Except.ok.injEq] at h
        obtain ⟨hdb, -⟩ := h
        subst hdb
        have hexmem : ex ∈ db.attendance := List.mem_of_find?_eq_some hfind
        have hexkey : attKeyb u d ex = true := List.find?_some hfind
        have hnodup : db.attendance.Pairwise (fun a bb => a ≠ bb) :=
          hwf1.imp (fun hne heq => hne (congrArg AttendanceRecord.id heq))
        have hsymm : Symmetric
            (fun a bb : AttendanceRecord =>
              ¬(a.user_id = bb.user_id ∧ a.date = bb.date)) := by
          intro a bb hne hh
          exact hne ⟨hh.1.symm, hh.2.symm⟩
        have huniq : ∀ x ∈ db.attendance, ∀ y ∈ db.attendance,
            attKeyb u d x = true → attKeyb u d y = true → x = y := by
          intro x hx y hy hkx hky
          by_contra hne
          rcases attKeyb_iff u d x |>.mp hkx with ⟨hx1, hx2⟩
          rcases attKeyb_iff u d y |>.mp hky with ⟨hy1, hy2⟩
          exact (hwf2.forall hsymm hx hy hne) ⟨hx1.trans hy1.symm, hx2.trans hy2.symm⟩
        refine ⟨⟨?_, ?_, ?_⟩, ?_, ?_⟩
        · rw [List.pairwise_map]
          exact hwf1.imp (fun hne => by simpa [applyUpdate_id] using hne)
        · rw [List.pairwise_map]
          exact hwf2.imp (fun hne => by
            simpa [applyUpdate_user_id, applyUpdate_date] using hne)
        · intro r hr
          rcases List.mem_map.mp hr with ⟨x, hx, hfx⟩
          subst hfx
          rw [applyUpdate_id]
          exact hwf3 x hx
        · rw [List.countP_map]
          rw [List.countP_congr
            (fun x _ => by rw [Function.comp_apply, applyUpdate_key])]
          exact countP_eq_one_unique db.attendance hnodup huniq ex hexmem hexkey
        · intro r hr hkey
          rcases List.mem_map.mp hr with ⟨x, hx, hfx⟩
          subst hfx
          rw [applyUpdate_key] at hkey
          have hxex : x = ex := huniq x hx ex hexmem hkey hexkey
          subst hxex
          simp [applyUpdate]

/-- C1: for every user id, date, and two valid Mark calls on that key, the
store afterwards holds exactly one attendance record for the key, and its
status, check-in, check-out and notes are the second call's arguments with
the status lowercased. -/
theorem mark_twice_upsert (db db1 db2 : DB) (u : Nat) (d s1 s2 : String)
    (ci1 co1 n1 ci2 co2 n2 : Option String) (hwf : db.wfAtt)
    (h1 : mark_attendance db u s1 d ci1 co1 n1 = (db1, .ok true))
    (h2 : mark_attendance db1 u s2 d ci2 co2 n2 = (db2, .ok true)) :
    db2.attendance.countP (attKeyb u d) = 1 ∧
    ∀ r ∈ db2.attendance, attKeyb u d r = true →
      r.status = strLower s2 ∧ r.check_in = ci2 ∧ r.check_out = co2 ∧
      r.notes = n2 := by
  have spec1 := mark_ok_spec db u s1 d ci1 co1 n1 db1 true hwf h1
  have spec2 := mark_ok_spec db1 u s2 d ci2 co2 n2 db2 true spec1.1 h2
  exact ⟨spec2.2.1, spec2.2.2⟩

/-! ### Concrete stores for the witness theorems -/

/-- The fresh store right after create_tables. -/
def dbEmpty : DB :=
  { users := [], attendance := [], next_user_id := 1, next_att_id := 1 }

/-- One registered user. -/
def dbAlice : DB :=
  { users := [{ id := 1, name := "Alice", role := "student" }],
    attendance := [], next_user_id := 2, next_att_id := 1 }

/-- dbAlice after one successful present mark with both times. -/
def dbAliceP : DB :=
  (mark_attendance dbAlice 1 "present" "2024-01-01"
    (some "09:00:00") (some "17:00:00") none).1

/-- dbAliceP after a second mark on the same (user, date) key. -/
def dbAliceL : DB :=
  (mark_attendance dbAliceP 1 "LATE" "2024-01-01" none none (some "overslept")).1

/-- Witness for C1: two concrete marks on the key (1, 2024-01-01); the store
ends with exactly one record for the key carrying the second call's data. -/
theorem mark_twice_upsert_witness :
    dbAliceL.attendance.countP (attKeyb 1 "2024-01-01") = 1 ∧
    ∀ r ∈ dbAliceL.attendance, attKeyb 1 "2024-01-01" r = true →
      r.status = strLower "LATE" ∧ r.check_in = none ∧ r.check_out = none ∧
      r.notes = some "overslept" :=
  mark_twice_upsert dbAlice dbAliceP dbAliceL 1 "2024-01-01" "present" "LATE"
    (some "09:00:00") (some "17:00:00") none none none (some "overslept")
    (by decide) rfl rfl

/-- C2 counterexample: a whitespace-only name passes the emptiness check of
add_user (Python truthiness sees a non-empty string), so the call succeeds
and stores the stripped, empty name, where the claim demands a
ValidationError failure with no row inserted. -/
theorem add_user_whitespace_accepted :
    (add_user dbEmpty " " "student").2 = .ok 1 ∧
    (add_user dbEmpty " " "student").1.users.map User.name = [""] :=
  ⟨rfl, rfl⟩

/-- C2 (amended): add_user fails with ValidationError exactly when the name
is the empty string or the lowercased role is outside the enumeration, and
the store is returned unchanged; otherwise the row is appended with the name
stripped and the role lowercased and the fresh id is returned. -/
theorem add_user_spec (db : DB) (name role : String) :
    (name = "" ∨ strLower role ∉ roles →
      ∃ msg, add_user db name role = (db, .error (.validationError msg))) ∧
    (name ≠ "" → strLower role ∈ roles →
      add_user db name role =
        ({ db with
            users := db.users ++
              [{ id := db.next_user_id, name := strTrim name,
                 role := strLower role }],
            next_user_id := db.next_user_id + 1 },
         .ok db.next_user_id)) := by
  constructor
  · intro h
    by_cases hempty : name = "" ∨ role = ""
    · exact ⟨"Name and role cannot be empty", by
        unfold add_user; rw [if_pos hempty]⟩
    · have hr : strLower role ∉ roles := by
        rcases h with hn | hr
        · exact absurd (Or.inl hn) hempty
        · exact hr
      exact ⟨"Role must be one of: student, employee, admin", by
        unfold add_user; rw [if_neg hempty, if_pos hr]⟩
  · intro hn hr
    have hne : ¬(name = "" ∨ role = "") := by
      intro hcon
      rcases hcon with hc | hc
      · exact hn hc
      · rw [hc] at hr
        exact absurd hr (by decide)
    unfold add_user
    rw [if_neg hne, if_neg (not_not_intro hr)]

/-- Witness for the amended C2 theorem: a rejected empty name and an
accepted registration that stores the trimmed name and lowercased role. -/
theorem add_user_spec_witness :
    (∃ msg, add_user dbEmpty "" "student" =
      (dbEmpty, .error (.validationError msg))) ∧
    add_user dbEmpty "Bob " "ADMIN" =
      ({ users := [{ id := 1, name := "Bob", role := "admin" }], attendance := [], next_user_id := 2, next_att_id := 1 }, .ok 1) := by
  constructor
  · exact (add_user_spec dbEmpty "" "student").1 (Or.inl rfl)
  · exact ((add_user_spec dbEmpty "Bob " "ADMIN").2 (by decide) (by decide)).trans rfl

/-- C3: an invalid status makes mark_attendance fail with ValidationError
and an unknown user id makes it fail with NotFoundError; both checks run
before any mutation, so the returned store is the unchanged input. -/
theorem mark_attendance_validation (db : DB) (u : Nat) (s d : String)
    (ci co n : Option String) :
    (strLower s ∉ statuses →
      ∃ msg, mark_attendance db u s d ci co n =
        (db, .error (.validationError msg))) ∧
    (strLower s ∈ statuses → (∀ uu ∈ db.users, uu.id ≠ u) →
      ∃ msg, mark_attendance db u s d ci co n =
        (db, .error (.notFoundError msg))) := by
  constructor
  · intro hst
    exact ⟨"Status must be one of: present, absent, late", by
      unfold mark_attendance; rw [if_pos hst]⟩
  · intro hst hex
    exact ⟨"User with this ID does not exist", by
      unfold mark_attendance; rw [if_neg (not_not_intro hst), if_pos hex]⟩

/-- Witness for C3: a bogus status is rejected with ValidationError and a
mark for the unknown id 99 is rejected with NotFoundError, both leaving the
one-user store unchanged. -/
theorem mark_attendance_validation_witness :
    (∃ msg, mark_attendance dbAlice 1 "bogus" "2024-01-02" none none none =
      (dbAlice, .error (.validationError msg))) ∧
    (∃ msg, mark_attendance dbAlice 99 "present" "2024-01-02" none none none =
      (dbAlice, .error (.notFoundError msg))) :=
  ⟨(mark_attendance_validation dbAlice 1 "bogus" "2024-01-02" none none none).1
      (by decide),
   (mark_attendance_validation dbAlice 99 "present" "2024-01-02" none none none).2
      (by decide) (by decide)⟩

/-! ### Component lemmas for generate_report -/

lemma reportRow_id (db : DB) (sd ed : String) (u : User) :
    (reportRow db sd ed u).id = u.id := rfl

lemma reportRow_name (db : DB) (sd ed : String) (u : User) :
    (reportRow db sd ed u).name = u.name := rfl

lemma reportRow_total_days (db : DB) (sd ed : String) (u : User) :
    (reportRow db sd ed u).total_days =
      ((userRecs db sd ed u.id).map (fun r => r.date)).dedup.length := rfl

lemma reportRow_present_days (db : DB) (sd ed : String) (u : User) :
    (reportRow db sd ed u).present_days =
      (userRecs db sd ed u.id).countP (fun r => r.status == "present") := rfl

lemma reportRow_absent_days (db : DB) (sd ed : String) (u : User) :
    (reportRow db sd ed u).absent_days =
      (userRecs db sd ed u.id).countP (fun r => r.status == "absent") := rfl

lemma reportRow_late_days (db : DB) (sd ed : String) (u : User) :
    (reportRow db sd ed u).late_days =
      (userRecs db sd ed u.id).countP (fun r => r.status == "late") := rfl

lemma reportRow_percent (db : DB) (sd ed : String) (u : User) :
    (reportRow db sd ed u).attendance_percent =
      (if (reportRow db sd ed u).total_days > 0 then
        round2 ((((reportRow db sd ed u).present_days : ℚ) /
          ((reportRow db sd ed u).total_days : ℚ)) * 100)
      else 0) := rfl

/-- C4: every row of generate_report carries attendance_percent = 0 when its
total_days is 0 and round2((present_days / total_days) * 100) otherwise. -/
theorem generate_report_percent (db : DB) (sd ed : String) (role : Option String)
    (row : ReportRow) (h : row ∈ generate_report db sd ed role) :
    row.attendance_percent =
      (if row.total_days = 0 then 0
       else round2 (((row.present_days : ℚ) / (row.total_days : ℚ)) * 100)) := by
  unfold generate_report at h
  rw [(List.perm_insertionSort _ _).mem_iff] at h
  rcases List.mem_map.mp h with ⟨u, hu, hrow⟩
  subst hrow
  rw [reportRow_percent]
  by_cases hT : (reportRow db sd ed u).total_days = 0
  · rw [if_neg (by omega), if_pos hT]
  · rw [if_pos (by omega), if_neg hT]

/-- The single report row of the witness store. -/
def reportAliceRow : ReportRow :=
  reportRow dbAliceP "2024-01-01" "2024-01-31"
    { id := 1, name := "Alice", role := "student" }

/-- Witness for C4 at a concrete one-user store with one present record. -/
theorem generate_report_percent_witness :
    reportAliceRow ∈ generate_report dbAliceP "2024-01-01" "2024-01-31" none ∧
    reportAliceRow.attendance_percent =
      (if reportAliceRow.total_days = 0 then 0
       else round2 (((reportAliceRow.present_days : ℚ) /
         (reportAliceRow.total_days : ℚ)) * 100)) := by
  have hm : reportAliceRow ∈ generate_report dbAliceP "2024-01-01" "2024-01-31" none := by
    show reportAliceRow ∈ [reportAliceRow]
    exact List.mem_singleton.mpr rfl
  exact ⟨hm,
    generate_report_percent dbAliceP "2024-01-01" "2024-01-31" none reportAliceRow hm⟩

/-- C5: generate_report has exactly one row per user surviving the role
filter (users id column being a primary key), users without attendance in
the range appear with all-zero counters, and the rows are ordered by name
ascending in the TEXT collation. -/
theorem generate_report_rows (db : DB) (sd ed : String) (role : Option String)
    (hids : db.usersNodup) :
    (generate_report db sd ed role).Pairwise
      (fun a b => strLeb a.name b.name = true) ∧
    (∀ u ∈ db.users, roleMatchb role u = true →
      (generate_report db sd ed role).countP (fun row => row.id == u.id) = 1) ∧
    (∀ u ∈ db.users, roleMatchb role u = true →
      (∀ r ∈ db.attendance, r.user_id = u.id → inRangeb sd ed r = false) →
      ∃ row ∈ generate_report db sd ed role, row.id = u.id ∧ row.name = u.name ∧
        row.total_days = 0 ∧ row.present_days = 0 ∧ row.absent_days = 0 ∧
        row.late_days = 0) := by
  refine ⟨?_, ?_, ?_⟩
  · unfold generate_report
    haveI hTot : IsTotal ReportRow (fun a b => strLeb a.name b.name = true) :=
      ⟨fun a b => strLeb_total a.name b.name⟩
    haveI hTrans : IsTrans ReportRow (fun a b => strLeb a.name b.name = true) :=
      ⟨fun a b c => strLeb_trans a.name b.name c.name⟩
    exact List.sorted_insertionSort _ _
  · intro u hu hrole
    unfold generate_report
    rw [List.Perm.countP_eq _ (List.perm_insertionSort _ _)]
    rw [List.countP_map]
    rw [List.countP_congr (q := fun v => v.id == u.id)
      (fun x _ => by rw [Function.comp_apply, reportRow_id])]
    rw [List.countP_filter]
    have hnodup : db.users.Pairwise (fun a b => a ≠ b) :=
      hids.imp (fun hne heq => hne (congrArg User.id heq))
    have hsymm : Symmetric (fun a b : User => a.id ≠ b.id) :=
      fun a b hne heq => hne heq.symm
    have huniq : ∀ x ∈ db.users, ∀ y ∈ db.users,
        (x.id == u.id && roleMatchb role x) = true →
        (y.id == u.id && roleMatchb role y) = true → x = y := by
      intro x hx y hy hpx hpy
      rw [Bool.and_eq_true, beq_iff_eq] at hpx hpy
      by_contra hne
      exact (hids.forall hsymm hx hy hne) (hpx.1.trans hpy.1.symm)
    exact countP_eq_one_unique db.users hnodup huniq u hu
      (by rw [Bool.and_eq_true, beq_iff_eq]; exact ⟨rfl, hrole⟩)
  · intro u hu hrole hnoatt
    have hrecs : userRecs db sd ed u.id = [] := by
      rw [userRecs, List.filter_eq_nil_iff]
      intro r hr
      rw [Bool.and_eq_true, beq_iff_eq]
      intro hcon
      rw [hnoatt r hr hcon.1] at hcon
      exact Bool.false_ne_true hcon.2
    refine ⟨reportRow db sd ed u, ?_, rfl, rfl, ?_, ?_, ?_, ?_⟩
    · unfold generate_report
      rw [(List.perm_insertionSort _ _).mem_iff]
      exact List.mem_map.mpr ⟨u, List.mem_filter.mpr ⟨hu, hrole⟩, rfl⟩
    · rw [reportRow_total_days, hrecs]; rfl
    · rw [reportRow_present_days, hrecs]; rfl
    · rw [reportRow_absent_days, hrecs]; rfl
    · rw [reportRow_late_days, hrecs]; rfl

/-- Two users, one present record for Alice, none for Bob. -/
def dbAliceBob : DB :=
  { users := [{ id := 1, name := "Alice", role := "student" },
              { id := 2, name := "Bob", role := "employee" }],
    attendance := [{ id := 1, user_id := 1, date := "2024-01-01",
                     status := "present", check_in := some "09:00:00",
                     check_out := some "17:00:00", notes := none }],
    next_user_id := 3, next_att_id := 2 }

/-- Witness for C5 at a two-user store in which Bob has no attendance. -/
theorem generate_report_rows_witness :
    ((generate_report dbAliceBob "2024-01-01" "2024-01-31" none).Pairwise
      (fun a b => strLeb a.name b.name = true)) ∧
    (∀ u ∈ dbAliceBob.users, roleMatchb none u = true →
      (generate_report dbAliceBob "2024-01-01" "2024-01-31" none).countP
        (fun row => row.id == u.id) = 1) ∧
    (∀ u ∈ dbAliceBob.users, roleMatchb none u = true →
      (∀ r ∈ dbAliceBob.attendance, r.user_id = u.id →
        inRangeb "2024-01-01" "2024-01-31" r = false) →
      ∃ row ∈ generate_report dbAliceBob "2024-01-01" "2024-01-31" none,
        row.id = u.id ∧ row.name = u.name ∧ row.total_days = 0 ∧
        row.present_days = 0 ∧ row.absent_days = 0 ∧ row.late_days = 0) :=
  generate_report_rows dbAliceBob "2024-01-01" "2024-01-31" none (by decide)

/-! ### Component lemmas for view_attendance and delete_user -/

lemma hoursWorked_none_left (co : Option String) : hoursWorked none co = none := by
  cases co <;> rfl

lemma hoursWorked_none_right (ci : Option String) : hoursWorked ci none = none := by
  cases ci <;> rfl

lemma mem_joinedRows (db : DB) (row : QueryRow) (h : row ∈ joinedRows db) :
    ∃ a ∈ db.attendance, ∃ u,
      db.users.find? (fun v => v.id == a.user_id) = some u ∧ row = joinRow a u := by
  rcases List.mem_filterMap.mp h with ⟨a, ha, hmap⟩
  rcases Option.map_eq_some'.mp hmap with ⟨u, hfind, hrow⟩
  exact ⟨a, ha, u, hfind, hrow.symm⟩

lemma delete_user_removed (db : DB) (uid : Nat) :
    (delete_user db uid).2 = db.users.any (fun u => u.id == uid) := rfl

lemma delete_user_users (db : DB) (uid : Nat) :
    (delete_user db uid).1.users = db.users.filter (fun u => !(u.id == uid)) := rfl

lemma delete_user_att (db : DB) (uid : Nat) :
    (delete_user db uid).1.attendance =
      (if db.users.any (fun u => u.id == uid) = true then
        db.attendance.filter (fun r => !(r.user_id == uid))
      else db.attendance) := rfl

/-- C6: every row returned by view_attendance carries hours_worked equal to
(check-out minus check-in) in hours when both times are present and NULL
otherwise. -/
theorem view_attendance_hours (db : DB) (sd ed : Option String)
    (uid : Option Nat) (st : Option String) (row : QueryRow)
    (h : row ∈ view_attendance db sd ed uid st) :
    (row.check_in = none ∨ row.check_out = none → row.hours_worked = none) ∧
    (∀ ci co, row.check_in = some ci → row.check_out = some co →
      row.hours_worked = some ((((timeSecs co - timeSecs ci : Int)) : ℚ) / 3600)) := by
  unfold view_attendance at h
  rw [(List.perm_insertionSort _ _).mem_iff] at h
  rcases mem_joinedRows db row (List.mem_filter.mp h).1 with ⟨a, ha, u, hfind, hrow⟩
  subst hrow
  constructor
  · intro hd
    show hoursWorked a.check_in a.check_out = none
    rcases hd with h1 | h1
    · rw [show a.check_in = none from h1, hoursWorked_none_left]
    · rw [show a.check_out = none from h1, hoursWorked_none_right]
  · intro ci co h1 h2
    show hoursWorked a.check_in a.check_out = _
    rw [show a.check_in = some ci from h1, show a.check_out = some co from h2]
    rfl

/-- The joined row of the witness store dbAliceP. -/
def rowAlice : QueryRow :=
  joinRow { id := 1, user_id := 1, date := "2024-01-01", status := "present",
            check_in := some "09:00:00", check_out := some "17:00:00",
            notes := none }
          { id := 1, name := "Alice", role := "student" }

/-- Witness for C6: the 09:00:00 to 17:00:00 record yields exactly 8 hours. -/
theorem view_attendance_hours_witness :
    rowAlice ∈ view_attendance dbAliceP (some "2024-01-01") (some "2024-01-01")
      none none ∧
    rowAlice.hours_worked = some 8 := by
  have hm : rowAlice ∈ view_attendance dbAliceP (some "2024-01-01")
      (some "2024-01-01") none none := by
    show rowAlice ∈ [rowAlice]
    exact List.mem_singleton.mpr rfl
  refine ⟨hm, ?_⟩
  have h := (view_attendance_hours dbAliceP (some "2024-01-01")
    (some "2024-01-01") none none rowAlice hm).2 "09:00:00" "17:00:00" rfl rfl
  rw [h, show timeSecs "17:00:00" - timeSecs "09:00:00" = (28800 : Int) from rfl]
  refine congrArg some ?_
  norm_num

/-- C9: a userId filter value of 0 is falsy in Python, so the filter is
silently dropped and the query equals the unfiltered one; the same happens
for an empty-string status or date bound; and on a populated store the
result of filtering by the nonexistent user id 0 is not empty. -/
theorem view_attendance_falsy (db : DB) (sd ed : Option String)
    (uid : Option Nat) (st : Option String) :
    (view_attendance db sd ed (some 0) st = view_attendance db sd ed none st ∧
     view_attendance db sd ed uid (some "") = view_attendance db sd ed uid none ∧
     view_attendance db (some "") ed uid st = view_attendance db none ed uid st ∧
     view_attendance db sd (some "") uid st = view_attendance db sd none uid st) ∧
    view_attendance dbAliceP none none (some 0) none ≠ [] :=
  ⟨⟨rfl, rfl, rfl, rfl⟩, List.cons_ne_nil _ _⟩

/-- C7: deleting a user removes the user row and, by the cascade, every
attendance record it owns; the boolean result is true exactly when a user
row existed; a false result leaves the store unchanged; and a subsequent
query filtered by the deleted id returns the empty list.  The hypotheses
hold on every reachable store: ids are assigned from 1 by AUTOINCREMENT and
the foreign key is enforced on every connection. -/
theorem delete_user_spec (db : DB) (uid : Nat) (hfk : db.fkOk) (h0 : uid ≠ 0) :
    ((delete_user db uid).2 = true ↔ ∃ u ∈ db.users, u.id = uid) ∧
    ((delete_user db uid).2 = false → (delete_user db uid).1 = db) ∧
    (∀ u ∈ (delete_user db uid).1.users, u.id ≠ uid) ∧
    (∀ r ∈ (delete_user db uid).1.attendance, r.user_id ≠ uid) ∧
    (∀ sd ed st, view_attendance (delete_user db uid).1 sd ed (some uid) st = []) := by
  have hatt : ∀ r ∈ (delete_user db uid).1.attendance, r.user_id ≠ uid := by
    intro r hr
    rw [delete_user_att] at hr
    by_cases hany : db.users.any (fun u => u.id == uid) = true
    · rw [if_pos hany] at hr
      have hpass := (List.mem_filter.mp hr).2
      simpa using hpass
    · rw [if_neg hany] at hr
      intro hcon
      rcases hfk r hr with ⟨u, hu, huid⟩
      exact hany (List.any_eq_true.mpr ⟨u, hu, by rw [beq_iff_eq, huid, hcon]⟩)
  refine ⟨?_, ?_, ?_, hatt, ?_⟩
  · rw [delete_user_removed, List.any_eq_true]
    simp
  · intro h2
    rw [delete_user_removed] at h2
    have husers : db.users.filter (fun u => !(u.id == uid)) = db.users := by
      rw [List.filter_eq_self]
      intro u hu
      have h3 := List.any_eq_false.mp h2 u hu
      rw [Bool.not_eq_true] at h3
      rw [h3]
      rfl
    calc (delete_user db uid).1
        = { users := db.users.filter (fun u => !(u.id == uid)), attendance := if db.users.any (fun u => u.id == uid) = true then db.attendance.filter (fun r => !(r.user_id == uid)) else db.attendance, next_user_id := db.next_user_id, next_att_id := db.next_att_id } := rfl
      _ = db := by rw [husers, if_neg (by rw [h2]; exact Bool.false_ne_true)]
  · intro u hu
    rw [delete_user_users] at hu
    have hpass := (List.mem_filter.mp hu).2
    simpa using hpass
  · intro sd ed st
    unfold view_attendance
    have hgiven : optNatGiven (some uid) = true := by
      simp [optNatGiven]
      exact h0
    have hfil : (joinedRows (delete_user db uid).1).filter
        (rowPasses sd ed (some uid) st) = [] := by
      rw [List.filter_eq_nil_iff]
      intro row hrow
      rcases mem_joinedRows _ row hrow with ⟨a, ha, u, hfind, hrowEq⟩
      subst hrowEq
      have hid : u.id = a.user_id := by
        have hb := List.find?_some hfind
        rwa [beq_iff_eq] at hb
      have hne : a.user_id ≠ uid := hatt a ha
      intro hpass
      unfold rowPasses at hpass
      rw [if_pos hgiven] at hpass
      simp only [Bool.and_eq_true] at hpass
      have hc := hpass.1.2
      rw [Option.getD_some, beq_iff_eq] at hc
      exact hne ((hid.symm.trans hc :))
    rw [hfil]
    rfl

/-- Witness for C7: deleting user 1 from the populated one-user store. -/
theorem delete_user_spec_witness :
    ((delete_user dbAliceP 1).2 = true ↔ ∃ u ∈ dbAliceP.users, u.id = 1) ∧
    ((delete_user dbAliceP 1).2 = false → (delete_user dbAliceP 1).1 = dbAliceP) ∧
    (∀ u ∈ (delete_user dbAliceP 1).1.users, u.id ≠ 1) ∧
    (∀ r ∈ (delete_user dbAliceP 1).1.attendance, r.user_id ≠ 1) ∧
    (∀ sd ed st, view_attendance (delete_user dbAliceP 1).1 sd ed (some 1) st = []) :=
  delete_user_spec dbAliceP 1 (by decide) (by decide)

/-! ### Component lemmas for get_attendance_stats -/

lemma stats_total_users (db : DB) (sd ed : String) :
    (get_attendance_stats db sd ed).total_users = db.users.length := rfl

lemma stats_total_records (db : DB) (sd ed : String) :
    (get_attendance_stats db sd ed).total_records =
      (db.attendance.filter (inRangeb sd ed)).length := rfl

lemma stats_present (db : DB) (sd ed : String) :
    (get_attendance_stats db sd ed).present_count =
      sumCase (fun r => r.status == "present")
        (db.attendance.filter (inRangeb sd ed)) := rfl

lemma stats_absent (db : DB) (sd ed : String) :
    (get_attendance_stats db sd ed).absent_count =
      sumCase (fun r => r.status == "absent")
        (db.attendance.filter (inRangeb sd ed)) := rfl

lemma stats_late (db : DB) (sd ed : String) :
    (get_attendance_stats db sd ed).late_count =
      sumCase (fun r => r.status == "late")
        (db.attendance.filter (inRangeb sd ed)) := rfl

lemma stats_rate (db : DB) (sd ed : String) :
    (get_attendance_stats db sd ed).overall_present_rate =
      (if (db.attendance.filter (inRangeb sd ed)).length > 0 then
        round2 ((((sumCase (fun r => r.status == "present")
          (db.attendance.filter (inRangeb sd ed))).getD 0 : ℚ) /
          ((db.attendance.filter (inRangeb sd ed)).length : ℚ)) * 100)
      else 0) := rfl

/-- C8 counterexample: on the empty store the per-status fields of
get_attendance_stats are NULL (SUM over zero rows), not the per-status
count the claim asserts for every dataset and range. -/
theorem get_attendance_stats_null_counts :
    (get_attendance_stats dbEmpty "2024-01-01" "2024-01-31").present_count = none ∧
    (get_attendance_stats dbEmpty "2024-01-01" "2024-01-31").present_count ≠
      some ((dbEmpty.attendance.filter (inRangeb "2024-01-01" "2024-01-31")).countP
        (fun r => r.status == "present")) :=
  ⟨rfl, by decide⟩

/-- C8 (amended): OverallStats returns the unconditional user count and the
count of records in the inclusive range; the per-status fields equal the
per-status counts whenever at least one record is in range (they are NULL
otherwise, see the empty-range theorem); and the overall present rate is
round2((present / total) * 100) when total_records is positive and 0 when it
is 0. -/
theorem get_attendance_stats_spec (db : DB) (sd ed : String) :
    (get_attendance_stats db sd ed).total_users = db.users.length ∧
    (get_attendance_stats db sd ed).total_records =
      (db.attendance.filter (inRangeb sd ed)).length ∧
    ((db.attendance.filter (inRangeb sd ed)).length ≠ 0 →
      (get_attendance_stats db sd ed).present_count =
        some ((db.attendance.filter (inRangeb sd ed)).countP
          (fun r => r.status == "present")) ∧
      (get_attendance_stats db sd ed).absent_count =
        some ((db.attendance.filter (inRangeb sd ed)).countP
          (fun r => r.status == "absent")) ∧
      (get_attendance_stats db sd ed).late_count =
        some ((db.attendance.filter (inRangeb sd ed)).countP
          (fun r => r.status == "late")) ∧
      (get_attendance_stats db sd ed).overall_present_rate =
        round2 ((((db.attendance.filter (inRangeb sd ed)).countP
          (fun r => r.status == "present") : ℚ) /
          ((db.attendance.filter (inRangeb sd ed)).length : ℚ)) * 100)) ∧
    ((db.attendance.filter (inRangeb sd ed)).length = 0 →
      (get_attendance_stats db sd ed).overall_present_rate = 0) := by
  refine ⟨rfl, rfl, ?_, ?_⟩
  · intro hlen
    have hisE : (db.attendance.filter (inRangeb sd ed)).isEmpty = false := by
      rw [← Bool.not_eq_true, List.isEmpty_iff]
      intro hc
      exact hlen (by rw [hc]; rfl)
    have hnotE : ¬ (db.attendance.filter (inRangeb sd ed)).isEmpty = true := by
      rw [hisE]; exact Bool.false_ne_true
    refine ⟨?_, ?_, ?_, ?_⟩
    · rw [stats_present]; unfold sumCase; rw [if_neg hnotE]
    · rw [stats_absent]; unfold sumCase; rw [if_neg hnotE]
    · rw [stats_late]; unfold sumCase; rw [if_neg hnotE]
    · rw [stats_rate, if_pos (Nat.pos_of_ne_zero hlen)]
      unfold sumCase
      rw [if_neg hnotE, Option.getD_some]
  · intro hlen
    rw [stats_rate, if_neg (by omega)]

/-- Witness for the amended C8 theorem at the one-record store. -/
theorem get_attendance_stats_spec_witness :
    (get_attendance_stats dbAliceP "2024-01-01" "2024-01-31").total_users = 1 ∧
    (get_attendance_stats dbAliceP "2024-01-01" "2024-01-31").total_records = 1 ∧
    (get_attendance_stats dbAliceP "2024-01-01" "2024-01-31").present_count = some 1 ∧
    (get_attendance_stats dbAliceP "2024-01-01" "2024-01-31").overall_present_rate = 100 := by
  have h := get_attendance_stats_spec dbAliceP "2024-01-01" "2024-01-31"
  have h1 := h.2.2.1 (by decide)
  refine ⟨h.1.trans rfl, h.2.1.trans rfl, h1.1.trans rfl, ?_⟩
  rw [h1.2.2.2]
  show round2 ((((1 : ℕ) : ℚ) / ((1 : ℕ) : ℚ)) * 100) = 100
  unfold round2
  rw [show ((((1 : ℕ) : ℚ) / ((1 : ℕ) : ℚ)) * 100) * 100 = ((10000 : ℤ) : ℚ) by
    norm_num]
  rw [round_intCast]
  norm_num

/-- C10: a range holding no attendance records yields total_records = 0 and
rate 0, while the three per-status SUM fields are NULL rather than 0. -/
theorem get_attendance_stats_empty_range (db : DB) (sd ed : String)
    (h : db.attendance.filter (inRangeb sd ed) = []) :
    (get_attendance_stats db sd ed).total_records = 0 ∧
    (get_attendance_stats db sd ed).present_count = none ∧
    (get_attendance_stats db sd ed).absent_count = none ∧
    (get_attendance_stats db sd ed).late_count = none ∧
    (get_attendance_stats db sd ed).overall_present_rate = 0 := by
  have hisE : (db.attendance.filter (inRangeb sd ed)).isEmpty = true := by
    rw [List.isEmpty_iff]; exact h
  refine ⟨?_, ?_, ?_, ?_, ?_⟩
  · rw [stats_total_records, h]; rfl
  · rw [stats_present]; unfold sumCase; rw [if_pos hisE]
  · rw [stats_absent]; unfold sumCase; rw [if_pos hisE]
  · rw [stats_late]; unfold sumCase; rw [if_pos hisE]
  · rw [stats_rate, if_neg (by rw [h]; simp)]

/-- Witness for C10: the populated store queried over an empty range. -/
theorem get_attendance_stats_empty_range_witness :
    (get_attendance_stats dbAliceP "2024-02-01" "2024-02-28").total_records = 0 ∧
    (get_attendance_stats dbAliceP "2024-02-01" "2024-02-28").present_count = none ∧
    (get_attendance_stats dbAliceP "2024-02-01" "2024-02-28").absent_count = none ∧
    (get_attendance_stats dbAliceP "2024-02-01" "2024-02-28").late_count = none ∧
    (get_attendance_stats dbAliceP "2024-02-01" "2024-02-28").overall_present_rate = 0 :=
  get_attendance_stats_empty_range dbAliceP "2024-02-01" "2024-02-28" (by decide)
